import Mathlib

/-!
Shallow embedding of `scripts/analyze_je.py`, a pandas-based journal-entry
analysis pipeline, together with theorems checking its specification.

Modelling conventions:
* A pandas `Series` (one column of a sheet) is a `Column`: a dtype tag plus a
  list of cells, each cell either missing (`none`, pandas NaN/NaT) or a value.
* Pandas floats are modelled as exact rationals `ℚ`; the chi-square statistic,
  which involves `math.log10`, lives in `ℝ`.
* Timestamps are modelled as integers `ℤ`; `pd.to_datetime(..., errors="coerce")`
  is modelled by an arbitrary per-value parse function `Val → Option ℤ`
  (unparseable values become `none`, exactly as coercion yields NaT), which is
  universally quantified in the theorems.
* File writes are modelled by recording, in order, the names of the artifact
  files written and the data each file is serialized from.
-/

namespace AnalyzeJE

/-- The inferred element type of a column (pandas dtype classes relevant to the
script: `is_numeric_dtype`, `is_datetime64_any_dtype`, anything else). -/
inductive Dtype
  | numeric
  | datetime
  | text
  deriving DecidableEq

/-- A non-missing cell value: a number, a timestamp, or a piece of text. -/
inductive Val
  | num (q : ℚ)
  | time (t : ℤ)
  | str (s : String)
  deriving DecidableEq

/-- One column of a sheet: its dtype together with its cells
(`none` is a missing value, pandas NaN/NaT). -/
structure Column where
  dtype : Dtype
  cells : List (Option Val)
  deriving DecidableEq

/-- View a value as a number (numeric cells of a numeric-dtype column). -/
def Val.asNum : Val → Option ℚ
  | Val.num q => some q
  | _ => none

/-- View a value as a timestamp (cells of a datetime-dtype column). -/
def Val.asTime : Val → Option ℤ
  | Val.time t => some t
  | _ => none

/-- `series.notna().sum()`: the number of non-missing cells. -/
def notnaCount (col : Column) : ℕ :=
  (col.cells.filterMap id).length

/-- `series.isna().sum()`: the number of missing cells. -/
def nullCount (col : Column) : ℕ :=
  (col.cells.filter Option.isNone).length

/-- `series.nunique(dropna=True)`: the number of distinct non-missing values. -/
def uniqueCount (col : Column) : ℕ :=
  (col.cells.filterMap id).dedup.length

/-- `str(series.dtype)`: the pandas dtype label. -/
def dtypeLabel : Dtype → String
  | Dtype.numeric => "float64"
  | Dtype.datetime => "datetime64[ns]"
  | Dtype.text => "object"

/-- The non-missing numeric values of a column, in order
(`series.dropna()` on a numeric-dtype column). -/
def numValues (col : Column) : List ℚ :=
  col.cells.filterMap (fun c => c.bind Val.asNum)

/-! ### Date-range detection (`detect_date_range`) -/

/-- The emitted date-range record: the dict
`{"non_null": ..., "min": ..., "max": ...}`.  `min`/`max` hold the timestamps
whose `isoformat()` renderings the script emits (ISO-8601 formatting of a
timestamp is injective, so the timestamps themselves are modelled). -/
structure DateRange where
  non_null : ℕ
  min : Option ℤ
  max : Option ℤ
  deriving DecidableEq

/-- The `parsed` series of `detect_date_range`: the column itself when it is
datetime-typed, otherwise `pd.to_datetime(series, errors="coerce")`, i.e. each
cell parsed by `parse` with failures and missing cells becoming `none` (NaT). -/
def parsedCells (parse : Val → Option ℤ) (col : Column) : List (Option ℤ) :=
  if col.dtype = Dtype.datetime then col.cells.map (fun c => c.bind Val.asTime)
  else col.cells.map (fun c => c.bind parse)

/-- The successfully parsed timestamps of a column, in order. -/
def parsedVals (parse : Val → Option ℤ) (col : Column) : List ℤ :=
  (parsedCells parse col).filterMap id

/-- `detect_date_range(series)`: `None` on an empty series; otherwise parse,
return `None` when nothing parses or when the parsed fraction of all cells
(missing included) is below one half, else the non-null count and the
minimum/maximum parsed timestamps. -/
def detect_date_range (parse : Val → Option ℤ) (col : Column) : Option DateRange :=
  if col.cells.isEmpty then none
  else
    let nonNull := (parsedVals parse col).length
    if nonNull = 0 then none
    else if ((nonNull : ℚ) / (col.cells.length : ℚ)) < 1 / 2 then none
    else some ⟨nonNull, (parsedVals parse col).min?, (parsedVals parse col).max?⟩

/-! ### Numeric summary (`numeric_summary`) -/

/-- The emitted numeric-summary record: the dict
`{"non_null": ..., "mean": ..., "min": ..., "max": ..., "sum": ...}`. -/
structure NumericSummary where
  non_null : ℕ
  mean : ℚ
  min : ℚ
  max : ℚ
  sum : ℚ
  deriving DecidableEq

/-- `numeric_summary(series)`: `None` unless the dtype is numeric (no
string-to-number coercion is attempted) and at least one value is non-missing;
otherwise the non-null count with mean, min, max and sum of the values. -/
def numeric_summary (col : Column) : Option NumericSummary :=
  if col.dtype ≠ Dtype.numeric then none
  else if notnaCount col = 0 then none
  else some
    { non_null := notnaCount col
      mean := (numValues col).sum / ((numValues col).length : ℚ)
      min := ((numValues col).min?).getD 0
      max := ((numValues col).max?).getD 0
      sum := (numValues col).sum }

/-! ### Benford analysis (`benford_expected`, `leading_digit`, `benford_summary`) -/

/-- Fuel-driven leading-decimal-digit extraction on naturals: divide by 10
until a single digit remains. -/
def natLeadDigitFuel : ℕ → ℕ → ℕ
  | 0, m => m
  | fuel + 1, m => if m < 10 then m else natLeadDigitFuel fuel (m / 10)

/-- The leading decimal digit of a natural number (0 for 0). -/
def natLeadDigit (m : ℕ) : ℕ :=
  natLeadDigitFuel m m

/-- The first significant decimal digit of a positive rational: the digit the
script reads off with `int(str(value).lstrip("0.")[0])` (the first significant
digit of the decimal rendering of the value). -/
def leadingDigitQ (q : ℚ) : ℕ :=
  natLeadDigit ((q.num.toNat * 10 ^ q.den) / q.den)

/-- `leading_digit(series)`: empty unless the dtype is numeric; otherwise drop
missing values, take absolute values, discard zeros, and map each remaining
value to its first significant decimal digit. -/
def leading_digit (col : Column) : List ℕ :=
  if col.dtype ≠ Dtype.numeric then []
  else
    let values := ((numValues col).map (fun v => |v|)).filter (fun v => decide (0 < v))
    if values.isEmpty then []
    else values.map leadingDigitQ

/-- `digits.value_counts().reindex(range(1, 10), fill_value=0)`: the tally of a
given digit among the leading digits. -/
def benford_counts (col : Column) (d : ℕ) : ℕ :=
  ((leading_digit col).filter (fun x => decide (x = d))).length

/-- `counts.sum()`: the total tallied count over digits 1–9. -/
def benford_total (col : Column) : ℕ :=
  ∑ d in Finset.Icc 1 9, benford_counts col d

/-- `(counts / total)`: the per-digit value the script stores under the key
`"percentages"` (and emits as `digit_<d>_pct`). -/
def benford_percentages (col : Column) (d : ℕ) : ℚ :=
  (benford_counts col d : ℚ) / (benford_total col : ℚ)

/-- `benford_expected()[d] = math.log10(1 + 1 / d)`. -/
noncomputable def benford_expected (d : ℕ) : ℝ :=
  Real.logb 10 (1 + 1 / (d : ℝ))

/-- The chi-square statistic of observed counts against the Benford expected
counts `benford_expected d * total`, summed over digits 1–9. -/
noncomputable def chiSquareOf (obs : ℕ → ℝ) (total : ℝ) : ℝ :=
  ∑ d in Finset.Icc 1 9,
    (obs d - benford_expected d * total) ^ 2 / (benford_expected d * total)

/-- `chi_square`: the chi-square of the tallies when the total is positive,
`0` otherwise (the script's `if total > 0 else 0`). -/
noncomputable def benford_chi_square (col : Column) : ℝ :=
  if 0 < benford_total col then
    chiSquareOf (fun d => (benford_counts col d : ℝ)) ((benford_total col : ℝ))
  else 0

/-- The emitted Benford record: the dict
`{"total": ..., "chi_square": ..., "counts": ..., "percentages": ...}`. -/
structure BenfordResult where
  total : ℕ
  chi_square : ℝ
  counts : ℕ → ℕ
  percentages : ℕ → ℚ

/-- `benford_summary(series)`: `None` when no digits survive the filtering,
otherwise the total, chi-square, per-digit counts and per-digit stored
percentage values. -/
noncomputable def benford_summary (col : Column) : Option BenfordResult :=
  if (leading_digit col).isEmpty then none
  else some
    { total := benford_total col
      chi_square := benford_chi_square col
      counts := benford_counts col
      percentages := benford_percentages col }

/-! ### Report assembly (`build_summary`) and entry point (`main`) -/

/-- One row of `column_stats.csv` (the `column_rows` entries). -/
structure ColumnStatRow where
  sheet : String
  column : String
  dtype : String
  non_null : ℕ
  nulls : ℕ
  unique : ℕ
  deriving DecidableEq

/-- One row of `benford_summary.csv` (the `benford_rows` entries):
sheet, column, `total_values`, `chi_square`, and the `digit_<d>_pct` values. -/
structure BenfordRow where
  sheet : String
  column : String
  total_values : ℕ
  chi_square : ℝ
  digit_pct : ℕ → ℚ

/-- One sheet of the workbook as parsed by `workbook.parse(sheet_name)`:
its name, its row count (`df.shape[0]`), and its named columns in order. -/
structure SheetData where
  name : String
  rowCount : ℕ
  cols : List (String × Column)

/-- The loaded workbook: file name and sheets in workbook-declared order. -/
structure Workbook where
  name : String
  sheets : List SheetData

/-- The per-sheet record of `summary["sheets"]`. -/
structure SheetSummary where
  sheet : String
  row_count : ℕ
  column_count : ℕ
  columns : List String
  date_ranges : List (String × DateRange)
  numeric_summaries : List (String × NumericSummary)

/-- The `summary` structure serialized to `summary.json`. -/
structure Summary where
  workbook : String
  sheet_count : ℕ
  sheets : List SheetSummary

/-- The `column_rows` rows contributed by one sheet, in column order. -/
def columnStatRowsOf (s : SheetData) : List ColumnStatRow :=
  s.cols.map (fun nc =>
    { sheet := s.name
      column := nc.1
      dtype := dtypeLabel nc.2.dtype
      non_null := notnaCount nc.2
      nulls := nullCount nc.2
      unique := uniqueCount nc.2 })

/-- The `benford_rows` rows contributed by one sheet: one row per column whose
`benford_summary` is not `None` (a returned dict is non-empty, hence truthy). -/
noncomputable def benfordRowsOfSheet (sheetName : String)
    (cols : List (String × Column)) : List BenfordRow :=
  cols.filterMap (fun nc =>
    (benford_summary nc.2).map (fun r =>
      { sheet := sheetName
        column := nc.1
        total_values := r.total
        chi_square := r.chi_square
        digit_pct := r.percentages }))

/-- The sheet-level summary record: row/column counts, the column-name list,
and the per-column date ranges and numeric summaries that were emitted
(a returned dict is non-empty, hence truthy). -/
def sheetSummaryOf (parse : Val → Option ℤ) (s : SheetData) : SheetSummary :=
  { sheet := s.name
    row_count := s.rowCount
    column_count := s.cols.length
    columns := s.cols.map Prod.fst
    date_ranges := s.cols.filterMap (fun nc =>
      (detect_date_range parse nc.2).map (fun r => (nc.1, r)))
    numeric_summaries := s.cols.filterMap (fun nc =>
      (numeric_summary nc.2).map (fun r => (nc.1, r))) }

/-- The data each artifact file's bytes are a pure serialization of: the
nested summary (`summary.json`, and `summary.md` which is formatted from it
plus the Benford rows), the flat column-stats rows (`column_stats.csv`), the
flat Benford rows (`benford_summary.csv`), and per sheet the table that
`df.describe(include="all")` is computed from (`describe_<sheet>.csv`). -/
structure RunOutput where
  summary : Summary
  columnStats : List ColumnStatRow
  benfordRows : List BenfordRow
  describeSheets : List (String × List (String × Column))

/-- `build_summary(excel_path, output_dir)` as a pure data transformation:
everything written to disk is a serialization of this value. -/
noncomputable def runOutput (parse : Val → Option ℤ) (wb : Workbook) : RunOutput :=
  { summary :=
      { workbook := wb.name
        sheet_count := wb.sheets.length
        sheets := wb.sheets.map (sheetSummaryOf parse) }
    columnStats := wb.sheets.flatMap columnStatRowsOf
    benfordRows := wb.sheets.flatMap (fun s => benfordRowsOfSheet s.name s.cols)
    describeSheets := wb.sheets.map (fun s => (s.name, s.cols)) }

/-- The names of the artifact files `build_summary` writes, in write order:
one describe CSV per sheet, then `column_stats.csv`, `summary.json`,
`benford_summary.csv` only when some column produced a Benford row, then
`summary.md` and `index.md`. -/
noncomputable def artifactsOf (parse : Val → Option ℤ) (wb : Workbook) : List String :=
  (wb.sheets.map (fun s => "describe_" ++ s.name ++ ".csv"))
    ++ ["column_stats.csv", "summary.json"]
    ++ (if (runOutput parse wb).benfordRows.isEmpty then []
        else ["benford_summary.csv"])
    ++ ["summary.md", "index.md"]

/-- The observable outcome of one `main()` invocation. -/
structure RunResult where
  exitCode : ℕ
  message : Option String
  outputDirCreated : Bool
  artifactsWritten : List String
  output : Option RunOutput

/-- `main()`: if the input path does not exist, raise `SystemExit` with a
user-facing message (exit code 1) before `build_summary` runs — so before the
output directory is created and before any artifact is written; otherwise run
`build_summary` (which creates the output directory and writes every artifact)
and exit 0. -/
noncomputable def mainRun (inputExists : Bool) (parse : Val → Option ℤ)
    (wb : Workbook) : RunResult :=
  if inputExists then
    { exitCode := 0
      message := none
      outputDirCreated := true
      artifactsWritten := artifactsOf parse wb
      output := some (runOutput parse wb) }
  else
    { exitCode := 1
      message := some "Input file not found"
      outputDirCreated := false
      artifactsWritten := []
      output := none }

/-- Negate a value when it is numeric, leave it unchanged otherwise. -/
def negVal : Val → Val
  | Val.num q => Val.num (-q)
  | v => v

/-- The column obtained by negating every (numeric) value of a column,
keeping missing cells and the dtype. -/
def negColumn (col : Column) : Column :=
  ⟨col.dtype, col.cells.map (Option.map negVal)⟩

/-! ### Concrete inputs used by witnesses and counterexamples -/

/-- A numeric column holding `[100, 200]`. -/
def pairPos : Column :=
  ⟨Dtype.numeric, [some (Val.num 100), some (Val.num 200)]⟩

/-- A numeric column holding `[-100, -200]`. -/
def pairNeg : Column :=
  ⟨Dtype.numeric, [some (Val.num (-100)), some (Val.num (-200))]⟩

/-- A numeric column holding `[1.0, 2.0]`. -/
def c12 : Column :=
  ⟨Dtype.numeric, [some (Val.num 1), some (Val.num 2)]⟩

/-- A numeric column holding the single value `1.0`. -/
def oneCol : Column :=
  ⟨Dtype.numeric, [some (Val.num 1)]⟩

/-- A numeric column holding `[0.0, NaN]`: non-null values exist but all are
zero. -/
def zeroCol : Column :=
  ⟨Dtype.numeric, [some (Val.num 0), none]⟩

/-- A numeric column with no rows. -/
def emptyCol : Column :=
  ⟨Dtype.numeric, []⟩

/-- A numeric column that is entirely missing. -/
def missCol : Column :=
  ⟨Dtype.numeric, [none, none]⟩

/-- A datetime column holding two timestamps. -/
def dtCol : Column :=
  ⟨Dtype.datetime, [some (Val.time 0), some (Val.time 5)]⟩

/-- A concrete parse function: only the text "2020-01-01" parses as a date. -/
def parse0 : Val → Option ℤ :=
  fun v => match v with
    | Val.str s => if s = "2020-01-01" then some 100 else none
    | _ => none

/-- A concrete sheet with an amount column and a date column. -/
def sheet1 : SheetData :=
  ⟨"s1", 2, [("amount", pairPos), ("posted", dtCol)]⟩

/-- A one-sheet workbook used by the end-to-end witnesses. -/
def wbEx : Workbook :=
  ⟨"je_samples", [sheet1]⟩

/-! ## Helper lemmas -/

/-- `leading_digit` without the redundant early return on an empty value list. -/
theorem leading_digit_expand (col : Column) :
    leading_digit col
      = if col.dtype = Dtype.numeric then
          (((numValues col).map (fun v => |v|)).filter
              (fun v => decide (0 < v))).map leadingDigitQ
        else [] := by
  rw [leading_digit]
  by_cases h : col.dtype = Dtype.numeric <;> simp only [h, ne_eq, ite_true, ite_false,
    not_true_eq_false, not_false_eq_true, if_true, if_false]
  cases hv : ((numValues col).map (fun v => |v|)).filter (fun v => decide (0 < v)) <;>
    simp [hv]

/-- Dropping a missing cell does not change the extracted numeric values. -/
theorem numValues_cons_none (d : Dtype) (cs : List (Option Val)) :
    numValues ⟨d, none :: cs⟩ = numValues ⟨d, cs⟩ := by
  simp [numValues]

/-- Negating every cell negates the extracted numeric values. -/
theorem numValues_negColumn (col : Column) :
    numValues (negColumn col) = (numValues col).map (fun q => -q) := by
  show List.filterMap _ (col.cells.map (Option.map negVal)) = _
  rw [List.filterMap_map, numValues, List.map_filterMap]
  congr 1
  funext c
  cases c with
  | none => rfl
  | some v => cases v <;> rfl

/-- At most as many cells parse as there are cells. -/
theorem parsedVals_length_le (parse : Val → Option ℤ) (col : Column) :
    (parsedVals parse col).length ≤ col.cells.length := by
  rw [parsedVals, parsedCells]
  by_cases h : col.dtype = Dtype.datetime <;>
    simp only [h, if_true, if_false, ite_true, ite_false] <;>
    exact le_trans (List.length_filterMap_le _ _) (by simp)

/-- Binding each cell through a partial function yields at most as many
results as there are non-missing cells. -/
theorem length_filterMap_bind_le (h : Val → Option ℤ) (cs : List (Option Val)) :
    (cs.filterMap (fun c => c.bind h)).length ≤ (cs.filterMap id).length := by
  induction cs with
  | nil => simp
  | cons c cs ih =>
    cases c with
    | none => simpa using ih
    | some v =>
      cases hv : h v <;> simp [List.filterMap_cons, hv] <;> omega

/-- Every cell that parses to a timestamp is a non-missing cell. -/
theorem parsedVals_length_le_notna (parse : Val → Option ℤ) (col : Column) :
    (parsedVals parse col).length ≤ notnaCount col := by
  rw [parsedVals, parsedCells, notnaCount]
  by_cases h : col.dtype = Dtype.datetime <;>
    simp only [h, if_true, if_false, ite_true, ite_false] <;>
    rw [List.filterMap_map] <;>
    simpa [Function.comp] using length_filterMap_bind_le _ col.cells

/-- The guard arithmetic: the parsed fraction is at least one half exactly
when twice the parsed count reaches the cell count. -/
theorem half_guard_iff (n L : ℕ) (hL : 0 < L) :
    ¬ ((n : ℚ) / (L : ℚ) < 1 / 2) ↔ L ≤ 2 * n := by
  rw [not_lt]
  rw [div_le_div_iff₀ (by norm_num : (0:ℚ) < 2) (by exact_mod_cast hL : (0:ℚ) < (L:ℚ))]
  constructor
  · intro h
    have h2 : (L : ℚ) ≤ ((2 * n : ℕ) : ℚ) := by push_cast; linarith
    exact_mod_cast h2
  · intro h
    have h2 : (L : ℚ) ≤ ((2 * n : ℕ) : ℚ) := by exact_mod_cast h
    push_cast at h2
    linarith

/-! ## Claims -/

/-- C5: Benford digit tallying is invariant under sign: missing cells and
zero values are excluded from the tally, and negating every value leaves the
digit list (hence the per-digit tallies) unchanged; in particular the inputs
`[-100, -200]` and `[100, 200]` yield identical tallies. -/
theorem C5_benford_sign_invariance :
    (∀ (d : Dtype) (cs : List (Option Val)),
        leading_digit ⟨d, none :: cs⟩ = leading_digit ⟨d, cs⟩)
    ∧ (∀ (d : Dtype) (cs : List (Option Val)),
        leading_digit ⟨d, some (Val.num 0) :: cs⟩ = leading_digit ⟨d, cs⟩)
    ∧ (∀ col : Column, leading_digit (negColumn col) = leading_digit col)
    ∧ leading_digit pairNeg = leading_digit pairPos := by
  refine ⟨fun d cs => ?_, fun d cs => ?_, fun col => ?_, by decide⟩
  · rw [leading_digit_expand, leading_digit_expand]
    rw [show numValues ⟨d, none :: cs⟩ = numValues ⟨d, cs⟩ from numValues_cons_none d cs]
  · rw [leading_digit_expand, leading_digit_expand]
    have h : numValues ⟨d, some (Val.num 0) :: cs⟩ = 0 :: numValues ⟨d, cs⟩ := by
      simp [numValues, Val.asNum]
    rw [h]
    simp
  · rw [leading_digit_expand, leading_digit_expand, numValues_negColumn]
    have hd : (negColumn col).dtype = col.dtype := rfl
    rw [hd, List.map_map]
    have habs : (fun v : ℚ => |v|) ∘ (fun q : ℚ => -q) = fun v : ℚ => |v| := by
      funext q
      simp [abs_neg]
    rw [habs]

/-- C10: date-range detection on a column with zero rows returns nothing, a
non-`None` result can only arise on a column with at least one row, and the
denominator of the qualifying-ratio division is nonzero whenever the guard on
emptiness has been passed. -/
theorem C10_empty_column_guard :
    (∀ (parse : Val → Option ℤ) (col : Column), col.cells = [] →
        detect_date_range parse col = none)
    ∧ (∀ (parse : Val → Option ℤ) (col : Column),
        detect_date_range parse col ≠ none → 0 < col.cells.length)
    ∧ (∀ col : Column, col.cells.isEmpty = false → ((col.cells.length : ℚ) ≠ 0)) := by
  refine ⟨fun parse col h => ?_, fun parse col h => ?_, fun col h => ?_⟩
  · rw [detect_date_range]
    simp [h]
  · by_contra hlen
    apply h
    rw [detect_date_range]
    have : col.cells = [] := by
      cases hc : col.cells with
      | nil => rfl
      | cons a l => rw [hc] at hlen; simp at hlen
    simp [this]
  · have : col.cells ≠ [] := by
      cases hc : col.cells with
      | nil => rw [hc] at h; simp at h
      | cons a l => simp
    have hlen : col.cells.length ≠ 0 := by
      simpa [List.length_eq_zero] using this
    exact_mod_cast Nat.cast_ne_zero.mpr hlen

/-- C10 witness: on the concrete empty column the detector returns nothing,
and on the concrete datetime column a result is produced, so its cell list is
non-empty. -/
theorem C10_empty_column_guard_witness :
    detect_date_range parse0 emptyCol = none ∧ 0 < dtCol.cells.length := by
  have hdet : detect_date_range parse0 dtCol = some ⟨2, some 0, some 5⟩ := by
    have h : parsedVals parse0 dtCol = [0, 5] := by decide
    rw [detect_date_range, h]
    norm_num [dtCol, List.min?, List.max?]
  exact ⟨C10_empty_column_guard.1 parse0 emptyCol rfl,
    C10_empty_column_guard.2.1 parse0 dtCol (by rw [hdet]; simp)⟩

/-- C2: a date range is emitted if and only if at least one value parses as a
date and the parsed count is at least half the total cell count (missing cells
included in the denominator); when emitted it carries the count of parsed
values and their minimum and maximum (the timestamps rendered as ISO-8601
strings in the report). -/
theorem C2_date_range_guard :
    ∀ (parse : Val → Option ℤ) (col : Column),
      ((detect_date_range parse col).isSome
        ↔ 0 < (parsedVals parse col).length
          ∧ col.cells.length ≤ 2 * (parsedVals parse col).length)
      ∧ (∀ r, detect_date_range parse col = some r →
          r.non_null = (parsedVals parse col).length
          ∧ r.min = (parsedVals parse col).min?
          ∧ r.max = (parsedVals parse col).max?
          ∧ r.min.isSome ∧ r.max.isSome)
      ∧ (∀ m, (parsedVals parse col).min? = some m →
          m ∈ parsedVals parse col ∧ ∀ x ∈ parsedVals parse col, m ≤ x)
      ∧ (∀ m, (parsedVals parse col).max? = some m →
          m ∈ parsedVals parse col ∧ ∀ x ∈ parsedVals parse col, x ≤ m) := by
  intro parse col
  have hempty : col.cells.isEmpty = true → parsedVals parse col = [] := by
    intro h
    have hc : col.cells = [] := List.isEmpty_iff.mp h
    rw [parsedVals, parsedCells]
    by_cases hd : col.dtype = Dtype.datetime <;> simp [hd, hc]
  refine ⟨?_, ?_, ?_, ?_⟩
  · simp only [detect_date_range]
    split_ifs with h1 h2 h3
    · simp [hempty h1]
    · simp [h2]
    · have hL : 0 < col.cells.length := by
        cases hc : col.cells with
        | nil => rw [hc] at h1; simp at h1
        | cons a l => simp [hc]
      have hno : ¬ col.cells.length ≤ 2 * (parsedVals parse col).length := by
        intro hle
        exact ((half_guard_iff _ _ hL).mpr hle) h3
      simp [hno]
    · have hL : 0 < col.cells.length := by
        cases hc : col.cells with
        | nil => rw [hc] at h1; simp at h1
        | cons a l => simp [hc]
      have hyes : col.cells.length ≤ 2 * (parsedVals parse col).length :=
        (half_guard_iff _ _ hL).mp h3
      simp [hyes, Nat.pos_of_ne_zero h2]
  · intro r hr
    simp only [detect_date_range] at hr
    split_ifs at hr with h1 h2 h3
    have hne : parsedVals parse col ≠ [] := by
      intro hnil
      rw [hnil] at h2
      simp at h2
    obtain ⟨rfl⟩ : r = ⟨(parsedVals parse col).length, (parsedVals parse col).min?,
        (parsedVals parse col).max?⟩ := by
      exact (Option.some_injective _ hr).symm
    refine ⟨rfl, rfl, rfl, ?_, ?_⟩
    · cases hm : (parsedVals parse col).min? with
      | none => exact absurd (List.min?_eq_none_iff.mp hm) hne
      | some m => simp
    · cases hm : (parsedVals parse col).max? with
      | none => exact absurd (List.max?_eq_none_iff.mp hm) hne
      | some m => simp
  · intro m hm
    refine ⟨List.min?_mem (fun a b => min_choice a b) hm, ?_⟩
    intro x hx
    exact (List.le_min?_iff (fun a b c => le_min_iff) hm).mp (le_refl m) x hx
  · intro m hm
    refine ⟨List.max?_mem (fun a b => max_choice a b) hm, ?_⟩
    intro x hx
    exact (List.max?_le_iff (fun a b c => max_le_iff) hm).mp (le_refl m) x hx

/-- C2 witness: on the concrete datetime column both parsed values qualify, a
range is emitted, and it carries the parsed count 2 with minimum 0 and
maximum 5. -/
theorem C2_date_range_guard_witness :
    (detect_date_range parse0 dtCol).isSome
    ∧ (⟨2, some 0, some 5⟩ : DateRange).non_null = (parsedVals parse0 dtCol).length
    ∧ (⟨2, some 0, some 5⟩ : DateRange).min = (parsedVals parse0 dtCol).min?
    ∧ (⟨2, some 0, some 5⟩ : DateRange).max = (parsedVals parse0 dtCol).max?
    ∧ (0 : ℤ) ∈ parsedVals parse0 dtCol
    ∧ (5 : ℤ) ∈ parsedVals parse0 dtCol := by
  have hdet : detect_date_range parse0 dtCol = some ⟨2, some 0, some 5⟩ := by
    have h : parsedVals parse0 dtCol = [0, 5] := by decide
    rw [detect_date_range, h]
    norm_num [dtCol, List.min?, List.max?]
  have hc := (C2_date_range_guard parse0 dtCol).2.1 ⟨2, some 0, some 5⟩ hdet
  have hmin := (C2_date_range_guard parse0 dtCol).2.2.1 0 (by decide)
  have hmax := (C2_date_range_guard parse0 dtCol).2.2.2 5 (by decide)
  exact ⟨by rw [hdet]; rfl, hc.1, hc.2.1, hc.2.2.1, hmin.1, hmax.1⟩

/-- C6: a date range can be present for a column only if the column is
datetime-typed or at least half of its non-missing values parse as dates (a
necessary condition with the non-null count as denominator). -/
theorem C6_date_range_necessary :
    ∀ (parse : Val → Option ℤ) (col : Column) (r : DateRange),
      detect_date_range parse col = some r →
      col.dtype = Dtype.datetime
      ∨ notnaCount col ≤ 2 * (parsedVals parse col).length := by
  intro parse col r hr
  right
  simp only [detect_date_range] at hr
  split_ifs at hr with h1 h2 h3
  have hL : 0 < col.cells.length := by
    cases hc : col.cells with
    | nil => rw [hc] at h1; simp at h1
    | cons a l => simp [hc]
  have hn : notnaCount col ≤ col.cells.length := by
    rw [notnaCount]
    exact List.length_filterMap_le _ _
  exact le_trans hn ((half_guard_iff _ _ hL).mp h3)

/-- C6 witness: the concrete datetime column emits a range and satisfies the
necessary condition. -/
theorem C6_date_range_necessary_witness :
    dtCol.dtype = Dtype.datetime
    ∨ notnaCount dtCol ≤ 2 * (parsedVals parse0 dtCol).length := by
  have hdet : detect_date_range parse0 dtCol = some ⟨2, some 0, some 5⟩ := by
    have h : parsedVals parse0 dtCol = [0, 5] := by decide
    rw [detect_date_range, h]
    norm_num [dtCol, List.min?, List.max?]
  exact C6_date_range_necessary parse0 dtCol ⟨2, some 0, some 5⟩ hdet

/-- C4: a numeric summary is emitted if and only if the column's element type
is numeric (no string-to-number coercion is attempted) and its non-null count
is positive; when emitted it carries {non-null count, mean, min, max, sum} of
the values, and an entirely-missing column emits nothing. -/
theorem C4_numeric_summary_guard :
    ∀ col : Column,
      ((numeric_summary col).isSome
        ↔ col.dtype = Dtype.numeric ∧ 0 < notnaCount col)
      ∧ (∀ s, numeric_summary col = some s →
          s.non_null = notnaCount col
          ∧ s.mean = (numValues col).sum / ((numValues col).length : ℚ)
          ∧ s.min = ((numValues col).min?).getD 0
          ∧ s.max = ((numValues col).max?).getD 0
          ∧ s.sum = (numValues col).sum)
      ∧ ((∀ c ∈ col.cells, c = none) → numeric_summary col = none) := by
  intro col
  refine ⟨?_, ?_, ?_⟩
  · rw [numeric_summary]
    split_ifs with h1 h2
    · simp [h1]
    · simp [h2]
    · simp [not_not.mp h1, Nat.pos_of_ne_zero h2]
  · intro s hs
    rw [numeric_summary] at hs
    split_ifs at hs
    obtain rfl : s = _ := Option.some_injective _ hs.symm
    exact ⟨rfl, rfl, rfl, rfl, rfl⟩
  · intro hall
    have h0 : notnaCount col = 0 := by
      rw [notnaCount]
      have hnil : col.cells.filterMap id = [] := by
        rw [List.filterMap_eq_nil_iff]
        intro c hc
        rw [hall c hc]
        rfl
      rw [hnil]
      rfl
    rw [numeric_summary]
    split_ifs <;> rfl

/-- C4 witness: the column `[1.0, 2.0]` emits the summary
`{non_null 2, mean 3/2, min 1, max 2, sum 3}`, and the entirely-missing
numeric column emits nothing. -/
theorem C4_numeric_summary_guard_witness :
    (numeric_summary c12).isSome
    ∧ (⟨2, 3/2, 1, 2, 3⟩ : NumericSummary).non_null = notnaCount c12
    ∧ (⟨2, 3/2, 1, 2, 3⟩ : NumericSummary).mean
        = (numValues c12).sum / ((numValues c12).length : ℚ)
    ∧ (⟨2, 3/2, 1, 2, 3⟩ : NumericSummary).sum = (numValues c12).sum
    ∧ numeric_summary missCol = none := by
  have h : numValues c12 = [1, 2] := by decide
  have h2 : notnaCount c12 = 2 := by decide
  have hns : numeric_summary c12 = some ⟨2, 3/2, 1, 2, 3⟩ := by
    rw [numeric_summary, h, h2]
    norm_num [c12, List.min?, List.max?]
  have hc := (C4_numeric_summary_guard c12).2.1 ⟨2, 3/2, 1, 2, 3⟩ hns
  exact ⟨by rw [hns]; rfl, hc.1, hc.2.1, hc.2.2.2.2,
    (C4_numeric_summary_guard missCol).2.2 (by decide)⟩

/-- C9: a numeric column with at least one non-missing value all of whose
non-missing values are zero gets a numeric summary, but no Benford result is
emitted for it and it contributes no row to the Benford table. -/
theorem C9_all_zero_column :
    ∀ col : Column, col.dtype = Dtype.numeric → 0 < notnaCount col →
      (∀ c ∈ col.cells, c = none ∨ c = some (Val.num 0)) →
      (numeric_summary col).isSome
      ∧ benford_summary col = none
      ∧ ∀ (sheetName cname : String) (pre post : List (String × Column)),
          benfordRowsOfSheet sheetName (pre ++ (cname, col) :: post)
            = benfordRowsOfSheet sheetName (pre ++ post) := by
  intro col hdt hnn hall
  have hnum : ∀ q ∈ numValues col, q = 0 := by
    intro q hq
    rw [numValues] at hq
    obtain ⟨c, hc, hbind⟩ := List.mem_filterMap.mp hq
    rcases hall c hc with rfl | rfl
    · simp at hbind
    · simp only [Option.some_bind, Val.asNum, Option.some_inj] at hbind
      exact hbind.symm
  have hld : leading_digit col = [] := by
    rw [leading_digit_expand, if_pos hdt]
    have hfil : ((numValues col).map (fun v => |v|)).filter
        (fun v => decide (0 < v)) = [] := by
      rw [List.filter_eq_nil_iff]
      intro a ha
      obtain ⟨q, hq, rfl⟩ := List.mem_map.mp ha
      rw [hnum q hq]
      simp
    rw [hfil]
    rfl
  have hbs : benford_summary col = none := by
    rw [benford_summary, hld]
    rfl
  refine ⟨?_, hbs, ?_⟩
  · rw [numeric_summary, if_neg (by simp [hdt]), if_neg (Nat.pos_iff_ne_zero.mp hnn)]
    rfl
  · intro sheetName cname pre post
    rw [benfordRowsOfSheet, benfordRowsOfSheet, List.filterMap_append,
      List.filterMap_append, List.filterMap_cons]
    simp [hbs]

/-- C9 witness: the column `[0.0, NaN]` gets a numeric summary, no Benford
result, and contributes no Benford row to a sheet. -/
theorem C9_all_zero_column_witness :
    (numeric_summary zeroCol).isSome
    ∧ benford_summary zeroCol = none
    ∧ benfordRowsOfSheet "s1" ([] ++ ("zero", zeroCol) :: [])
        = benfordRowsOfSheet "s1" ([] ++ []) := by
  have h := C9_all_zero_column zeroCol rfl (by decide) (by decide)
  exact ⟨h.1, h.2.1, h.2.2 "s1" "zero" [] []⟩

/-- The fuel-driven digit extraction lands in 1..9 when started on a positive
number within the fuel's reach. -/
theorem natLeadDigitFuel_range :
    ∀ (fuel m : ℕ), 1 ≤ m → m ≤ 9 * 10 ^ fuel →
      1 ≤ natLeadDigitFuel fuel m ∧ natLeadDigitFuel fuel m ≤ 9 := by
  intro fuel
  induction fuel with
  | zero =>
    intro m h1 h9
    rw [natLeadDigitFuel]
    refine ⟨h1, ?_⟩
    simpa using h9
  | succ fuel ih =>
    intro m h1 h9
    rw [natLeadDigitFuel]
    by_cases hm : m < 10
    · rw [if_pos hm]
      exact ⟨h1, by omega⟩
    · rw [if_neg hm]
      apply ih
      · rw [Nat.le_div_iff_mul_le (by norm_num : 0 < 10)]
        omega
      · have h2 : m / 10 ≤ 9 * 10 ^ (fuel + 1) / 10 := Nat.div_le_div_right h9
        have heq : 9 * 10 ^ (fuel + 1) / 10 = 9 * 10 ^ fuel := by
          rw [pow_succ, ← mul_assoc]
          exact Nat.mul_div_cancel _ (by norm_num)
        rw [heq] at h2
        exact h2

/-- The leading decimal digit of a positive natural number is in 1..9. -/
theorem natLeadDigit_range (m : ℕ) (h1 : 1 ≤ m) :
    1 ≤ natLeadDigit m ∧ natLeadDigit m ≤ 9 := by
  apply natLeadDigitFuel_range m m h1
  have h2 : m < 2 ^ m := Nat.lt_two_pow m
  have h3 : 2 ^ m ≤ 10 ^ m := Nat.pow_le_pow_left (by norm_num) m
  omega

/-- The first significant decimal digit of a positive rational is in 1..9. -/
theorem leadingDigitQ_range (q : ℚ) (hq : 0 < q) :
    1 ≤ leadingDigitQ q ∧ leadingDigitQ q ≤ 9 := by
  rw [leadingDigitQ]
  apply natLeadDigit_range
  have hden : 0 < q.den := q.den_pos
  have hnum : 1 ≤ q.num.toNat := by
    have := Rat.num_pos.mpr hq
    omega
  rw [Nat.le_div_iff_mul_le hden, one_mul]
  have hd10 : q.den ≤ 10 ^ q.den := by
    have h2 := Nat.lt_two_pow q.den
    have h3 := Nat.pow_le_pow_left (show 2 ≤ 10 by norm_num) q.den
    omega
  calc q.den ≤ 10 ^ q.den := hd10
    _ = 1 * 10 ^ q.den := (one_mul _).symm
    _ ≤ q.num.toNat * 10 ^ q.den := Nat.mul_le_mul_right _ hnum

/-- Every emitted leading digit is in 1..9. -/
theorem leading_digit_mem_Icc (col : Column) :
    ∀ x ∈ leading_digit col, x ∈ Finset.Icc 1 9 := by
  intro x hx
  rw [leading_digit_expand] at hx
  by_cases h : col.dtype = Dtype.numeric
  · rw [if_pos h] at hx
    obtain ⟨v, hv, rfl⟩ := List.mem_map.mp hx
    have hpos : 0 < v := by
      have := List.of_mem_filter hv
      simpa using this
    have hr := leadingDigitQ_range v hpos
    rw [Finset.mem_Icc]
    exact hr
  · rw [if_neg h] at hx
    simp at hx

/-- Counting each digit 1..9 separately and summing recovers the length of a
digit list whose members all lie in 1..9. -/
theorem sum_filter_count (l : List ℕ) (h : ∀ x ∈ l, x ∈ Finset.Icc 1 9) :
    ∑ d in Finset.Icc 1 9, (l.filter (fun x => decide (x = d))).length
      = l.length := by
  induction l with
  | nil => simp
  | cons a l ih =>
    have ha : a ∈ Finset.Icc 1 9 := h a (List.mem_cons_self a l)
    have hl : ∀ x ∈ l, x ∈ Finset.Icc 1 9 := fun x hx => h x (List.mem_cons_of_mem a hx)
    have step : ∀ d, ((a :: l).filter (fun x => decide (x = d))).length
        = (if a = d then 1 else 0) + (l.filter (fun x => decide (x = d))).length := by
      intro d
      by_cases had : a = d <;> simp [List.filter_cons, had] <;> omega
    calc ∑ d in Finset.Icc 1 9, ((a :: l).filter (fun x => decide (x = d))).length
        = ∑ d in Finset.Icc 1 9, ((if a = d then 1 else 0)
            + (l.filter (fun x => decide (x = d))).length) :=
          Finset.sum_congr rfl fun d _ => step d
      _ = (∑ d in Finset.Icc 1 9, if a = d then 1 else 0)
            + ∑ d in Finset.Icc 1 9, (l.filter (fun x => decide (x = d))).length :=
          Finset.sum_add_distrib
      _ = 1 + l.length := by
          rw [Finset.sum_ite_eq _ a (fun _ => 1), if_pos ha, ih hl]
      _ = (a :: l).length := by simp [Nat.add_comm]

/-- The Benford total is the number of tallied digits. -/
theorem benford_total_eq_length (col : Column) :
    benford_total col = (leading_digit col).length := by
  rw [benford_total]
  simp only [benford_counts]
  exact sum_filter_count _ (leading_digit_mem_Icc col)

/-- When some digit was tallied, the Benford total is positive. -/
theorem benford_total_pos (col : Column)
    (h : (leading_digit col).isEmpty = false) :
    0 < benford_total col := by
  rw [benford_total_eq_length]
  cases hc : leading_digit col with
  | nil => rw [hc] at h; simp at h
  | cons a l => simp [hc]

/-- Closed form of an emitted `benford_summary`. -/
theorem benford_summary_eq (col : Column)
    (h : (leading_digit col).isEmpty = false) :
    benford_summary col = some ⟨benford_total col, benford_chi_square col,
      benford_counts col, benford_percentages col⟩ := by
  rw [benford_summary, h]
  rfl

set_option maxHeartbeats 1000000 in
/-- C1: for every emitted Benford analysis the chi-square statistic is the sum
over digits 1..9 of (observed − expected)² / expected with
expected = log10(1 + 1/d) × total; and the chi-square formula vanishes on
observed counts that exactly match the expected proportions. -/
theorem C1_chi_square_formula :
    (∀ (col : Column) (r : BenfordResult), benford_summary col = some r →
        r.chi_square = chiSquareOf (fun d => (r.counts d : ℝ)) ((r.total : ℝ)))
    ∧ (∀ (obs : ℕ → ℝ) (total : ℝ),
        (∀ d ∈ Finset.Icc 1 9, obs d = benford_expected d * total) →
        chiSquareOf obs total = 0) := by
  constructor
  · intro col r hr
    rw [benford_summary] at hr
    split_ifs at hr with h
    obtain rfl : r = _ := Option.some_injective _ hr.symm
    show benford_chi_square col = _
    have hpos : 0 < benford_total col :=
      benford_total_pos col (by simpa using h)
    rw [benford_chi_square, if_pos hpos]
  · intro obs total h
    rw [chiSquareOf]
    apply Finset.sum_eq_zero
    intro d hd
    rw [h d hd]
    simp

/-- C1 witness: on the column `[1.0, 2.0]` the emitted chi-square equals the
formula, and the formula is exactly zero on a perfectly Benford-proportioned
observation vector with total 3. -/
theorem C1_chi_square_formula_witness :
    benford_chi_square c12
      = chiSquareOf (fun d => (benford_counts c12 d : ℝ)) ((benford_total c12 : ℝ))
    ∧ chiSquareOf (fun d => benford_expected d * 3) 3 = 0 := by
  constructor
  · exact C1_chi_square_formula.1 c12
      ⟨benford_total c12, benford_chi_square c12, benford_counts c12,
        benford_percentages c12⟩
      (benford_summary_eq c12 (by decide))
  · exact C1_chi_square_formula.2 (fun d => benford_expected d * 3) 3 (fun d _ => rfl)

/-- C3 counterexample: the claim that the reported per-digit percentage equals
100 × observed / total is false: on the column `[1.0]` the stored value for
digit 1 is 1, not 100. -/
theorem C3_percentage_counterexample :
    ¬ (∀ (col : Column) (r : BenfordResult), benford_summary col = some r →
        ∀ d ∈ Finset.Icc 1 9,
          r.percentages d = 100 * (r.counts d : ℚ) / ((r.total : ℚ))) := by
  intro hclaim
  have h0 : benford_summary oneCol = some ⟨benford_total oneCol,
      benford_chi_square oneCol, benford_counts oneCol, benford_percentages oneCol⟩ :=
    benford_summary_eq oneCol (by decide)
  have h1 : benford_percentages oneCol 1
      = 100 * (benford_counts oneCol 1 : ℚ) / ((benford_total oneCol : ℚ)) :=
    hclaim oneCol _ h0 1 (by decide)
  have e1 : benford_counts oneCol 1 = 1 := by decide
  have e2 : benford_total oneCol = 1 := by decide
  rw [benford_percentages, e1, e2] at h1
  norm_num at h1

/-- C3 amended: for every emitted Benford result and digit, the reported
per-digit value under the percentage heading is the observed share
(observed count / total tallied count), not scaled by 100. -/
theorem C3_observed_share :
    ∀ (col : Column) (r : BenfordResult), benford_summary col = some r →
      ∀ d : ℕ, r.percentages d = (r.counts d : ℚ) / ((r.total : ℚ)) := by
  intro col r hr d
  rw [benford_summary] at hr
  split_ifs at hr
  obtain rfl : r = _ := Option.some_injective _ hr.symm
  rfl

/-- C3 witness: on the column `[1.0]` the stored value for digit 1 is the
observed share 1/1. -/
theorem C3_observed_share_witness :
    benford_percentages oneCol 1
      = (benford_counts oneCol 1 : ℚ) / ((benford_total oneCol : ℚ)) :=
  C3_observed_share oneCol ⟨benford_total oneCol, benford_chi_square oneCol,
    benford_counts oneCol, benford_percentages oneCol⟩
    (benford_summary_eq oneCol (by decide)) 1

/-- C7: when the input path does not exist the run terminates with a non-zero
exit code and a user-facing message before any filesystem output: no output
directory is created and no artifact is written; when the input exists the run
exits 0 after writing every artifact (the per-sheet describe tables, the
column stats, the JSON summary, the Benford CSV when some column qualified,
the Markdown summary and the index). -/
theorem C7_exit_behavior :
    ∀ (parse : Val → Option ℤ) (wb : Workbook),
      ((mainRun false parse wb).exitCode ≠ 0
        ∧ (mainRun false parse wb).message.isSome
        ∧ (mainRun false parse wb).artifactsWritten = []
        ∧ (mainRun false parse wb).outputDirCreated = false
        ∧ (mainRun false parse wb).output = none)
      ∧ ((mainRun true parse wb).exitCode = 0
        ∧ (mainRun true parse wb).outputDirCreated = true
        ∧ (mainRun true parse wb).artifactsWritten = artifactsOf parse wb
        ∧ (mainRun true parse wb).output = some (runOutput parse wb)
        ∧ "column_stats.csv" ∈ artifactsOf parse wb
        ∧ "summary.json" ∈ artifactsOf parse wb
        ∧ "summary.md" ∈ artifactsOf parse wb
        ∧ "index.md" ∈ artifactsOf parse wb
        ∧ (∀ s ∈ wb.sheets,
            ("describe_" ++ s.name ++ ".csv") ∈ artifactsOf parse wb)) := by
  intro parse wb
  constructor
  · exact ⟨by simp [mainRun], by simp [mainRun], by simp [mainRun],
      by simp [mainRun], by simp [mainRun]⟩
  · refine ⟨by simp [mainRun], by simp [mainRun], by simp [mainRun],
      by simp [mainRun], ?_, ?_, ?_, ?_, ?_⟩
    · exact List.mem_append.mpr (Or.inl (List.mem_append.mpr (Or.inl
        (List.mem_append.mpr (Or.inr (List.mem_cons_self _ _))))))
    · exact List.mem_append.mpr (Or.inl (List.mem_append.mpr (Or.inl
        (List.mem_append.mpr (Or.inr
          (List.mem_cons_of_mem _ (List.mem_cons_self _ _)))))))
    · exact List.mem_append.mpr (Or.inr (List.mem_cons_self _ _))
    · exact List.mem_append.mpr (Or.inr
        (List.mem_cons_of_mem _ (List.mem_cons_self _ _)))
    · intro s hs
      exact List.mem_append.mpr (Or.inl (List.mem_append.mpr (Or.inl
        (List.mem_append.mpr (Or.inl (List.mem_map_of_mem _ hs))))))

/-- C7 witness: on the concrete one-sheet workbook the missing-input run exits
non-zero, the successful run exits 0, and the summary and describe artifacts
are among the written files. -/
theorem C7_exit_behavior_witness :
    (mainRun false parse0 wbEx).exitCode ≠ 0
    ∧ (mainRun true parse0 wbEx).exitCode = 0
    ∧ "summary.json" ∈ artifactsOf parse0 wbEx
    ∧ ("describe_" ++ sheet1.name ++ ".csv") ∈ artifactsOf parse0 wbEx := by
  have h := C7_exit_behavior parse0 wbEx
  exact ⟨h.1.1, h.2.1, h.2.2.2.2.2.2.1,
    h.2.2.2.2.2.2.2.2.2 sheet1 (List.mem_cons_self _ _)⟩

/-- C8: the pipeline is deterministic in its input: two runs over equal
workbook contents produce equal report data, equal artifact-name lists, and
equal run results, so every artifact file is rewritten with identical
contents (each file's bytes are a fixed serialization of this data). -/
theorem C8_deterministic :
    ∀ (parse : Val → Option ℤ) (wb1 wb2 : Workbook), wb1 = wb2 →
      runOutput parse wb1 = runOutput parse wb2
      ∧ artifactsOf parse wb1 = artifactsOf parse wb2
      ∧ mainRun true parse wb1 = mainRun true parse wb2 := by
  intro parse wb1 wb2 h
  subst h
  exact ⟨rfl, rfl, rfl⟩

/-- C8 witness: two runs on the concrete workbook agree. -/
theorem C8_deterministic_witness :
    runOutput parse0 wbEx = runOutput parse0 wbEx
    ∧ artifactsOf parse0 wbEx = artifactsOf parse0 wbEx
    ∧ mainRun true parse0 wbEx = mainRun true parse0 wbEx :=
  C8_deterministic parse0 wbEx wbEx rfl

end AnalyzeJE
